import Mathlib

namespace DermAI

/-- Model of a JavaScript runtime value.  Numbers are modelled by `Rat`
(the payloads reaching the normalizer come from JSON, which has no NaN
or infinities).  Objects are insertion-ordered association lists, which
is how JavaScript enumerates own properties. -/
inductive JSValue where
  | null
  | undefined
  | bool (b : Bool)
  | num (q : Rat)
  | str (s : String)
  | arr (elems : List JSValue)
  | obj (fields : List (String × JSValue))
deriving Repr

/-- `a ?? b` : JavaScript nullish test. -/
def nullish : JSValue → Bool
  | .null => true
  | .undefined => true
  | _ => false

/-- JavaScript nullish-coalescing operator `a ?? b`. -/
def orD (a b : JSValue) : JSValue := if nullish a then b else a

/-- JavaScript truthiness.  (`NaN` is not representable here; see the
module comment.) -/
def toBool : JSValue → Bool
  | .null => false
  | .undefined => false
  | .bool b => b
  | .num q => q ≠ 0
  | .str s => s ≠ ""
  | .arr _ => true
  | .obj _ => true

/-- `typeof v === "object"` (true for `null`, arrays and objects). -/
def typeofObject : JSValue → Bool
  | .null => true
  | .arr _ => true
  | .obj _ => true
  | _ => false

/-- Whitespace for the purposes of `String.prototype.trim`. -/
def isJsWs (c : Char) : Bool :=
  c = ' ' || c = '\t' || c = '\n' || c = '\r' || c = '\x0b' || c = '\x0c'

/-- Model of `String.prototype.trim`. -/
def jsTrim (s : String) : String :=
  ⟨((s.data.dropWhile isJsWs).reverse.dropWhile isJsWs).reverse⟩

/-- Model of `String.prototype.startsWith` (character-wise). -/
def jsStartsWith (s pfx : String) : Bool := pfx.data.isPrefixOf s.data

/-- Model of `String.prototype.slice(n)` (drop the first `n` characters). -/
def strDrop (s : String) (n : Nat) : String := ⟨s.data.drop n⟩

/-- Decimal digits of a natural number (fuelled so that it reduces by
`rfl`; the fuel `n+1` always suffices). -/
def natDigitsAux : Nat → Nat → List Char
  | 0, _ => []
  | fuel + 1, n =>
    if n < 10 then [Char.ofNat (48 + n)]
    else natDigitsAux fuel (n / 10) ++ [Char.ofNat (48 + n % 10)]

/-- Model of `String(n)` for a natural number. -/
def jsNatToString (n : Nat) : String := ⟨natDigitsAux (n + 1) n⟩

/-- Fractional decimal digits of `n / d`, up to `fuel` digits. -/
def fracDigitsAux : Nat → Nat → Nat → List Char
  | 0, _, _ => []
  | _ + 1, 0, _ => []
  | fuel + 1, n, d =>
    Char.ofNat (48 + n * 10 / d) :: fracDigitsAux fuel (n * 10 % d) d

/-- Model of `String(q)` for a JavaScript number: exact for integers
(the only case the repository exercises on ids), best-effort decimal
expansion otherwise. -/
def jsNumToString (q : Rat) : String :=
  if q.den = 1 then
    (if q.num < 0 then "-" else "") ++ jsNatToString q.num.natAbs
  else
    let sign := if q.num < 0 then "-" else ""
    let n := q.num.natAbs
    sign ++ jsNatToString (n / q.den) ++ "." ++ ⟨fracDigitsAux 20 (n % q.den) q.den⟩

mutual
/-- Model of JavaScript `String(v)` / template-literal stringification. -/
def jsToString : JSValue → String
  | .null => "null"
  | .undefined => "undefined"
  | .bool b => if b then "true" else "false"
  | .num q => jsNumToString q
  | .str s => s
  | .arr xs => String.intercalate "," (jsToStringElems xs)
  | .obj _ => "[object Object]"

/-- Array elements stringify with `null` and `undefined` as empty. -/
def jsToStringElems : List JSValue → List String
  | [] => []
  | .null :: rest => "" :: jsToStringElems rest
  | .undefined :: rest => "" :: jsToStringElems rest
  | v :: rest => jsToString v :: jsToStringElems rest
end

/-- Property read `fields[k]` on an insertion-ordered object: the first
binding of the key wins, absent keys read as `undefined`. -/
def getField : List (String × JSValue) → String → JSValue
  | [], _ => .undefined
  | (k2, v) :: rest, k => if k2 = k then v else getField rest k

/-- Property write `fields[k] = v`: replaces the first binding in place,
or appends a new binding (JavaScript insertion order). -/
def setField : List (String × JSValue) → String → JSValue → List (String × JSValue)
  | [], k, v => [(k, v)]
  | (k2, w) :: rest, k, v =>
    if k2 = k then (k, v) :: rest else (k2, w) :: setField rest k v

/-- The `in` operator restricted to own properties. -/
def hasField (fields : List (String × JSValue)) (k : String) : Bool :=
  fields.any (fun p => p.1 = k)

/-- Object spread `{...v}`: objects copy their fields, arrays and
strings spread to index-keyed entries, primitives spread to nothing. -/
def spreadFields : JSValue → List (String × JSValue)
  | .obj fs => fs
  | .arr xs => xs.enum.map (fun p => (jsNatToString p.1, p.2))
  | .str s => s.data.enum.map (fun p => (jsNatToString p.1, JSValue.str ⟨[p.2]⟩))
  | _ => []

/-- First decimal-or-integer numeral substring, as matched by the
regular expression `\d+(?:\.\d+)?` in the norwood branch. -/
def numeralAt (cs : List Char) : String :=
  let ds := cs.takeWhile Char.isDigit
  match cs.dropWhile Char.isDigit with
  | '.' :: r2 =>
    let fs := r2.takeWhile Char.isDigit
    if fs = [] then ⟨ds⟩ else ⟨ds ++ '.' :: fs⟩
  | _ => ⟨ds⟩

/-- Scan for the first digit and match the numeral pattern there. -/
def firstNumeralAux : List Char → Option String
  | [] => none
  | c :: rest => if c.isDigit then some (numeralAt (c :: rest)) else firstNumeralAux rest

/-- `s.match(/\d+(?:\.\d+)?/)`, first match or `none`. -/
def firstNumeral (s : String) : Option String := firstNumeralAux s.data

/-- Digit characters to a natural number. -/
def digitsToNat (ds : List Char) : Nat :=
  ds.foldl (fun a c => a * 10 + (c.toNat - 48)) 0

/-- `Number(m)` on a string of shape `\d+(\.\d+)?`. -/
def parseNumeral (s : String) : Rat :=
  let ds := s.data.takeWhile Char.isDigit
  match s.data.dropWhile Char.isDigit with
  | '.' :: r2 =>
    let fs := r2.takeWhile Char.isDigit
    (digitsToNat ds : Rat) + (digitsToNat fs : Rat) / (10 : Rat) ^ fs.length
  | _ => (digitsToNat ds : Rat)

/-- Split on the separator regular expression of the treatment branch,
`\r?\n|;|,`. -/
def splitSepChars : List Char → List (List Char)
  | [] => [[]]
  | '\r' :: '\n' :: rest => [] :: splitSepChars rest
  | c :: rest =>
    if c = '\n' ∨ c = ';' ∨ c = ',' then [] :: splitSepChars rest
    else
      match splitSepChars rest with
      | [] => [[c]]
      | t :: ts => (c :: t) :: ts

/-- `s.split(/\r?\n|;|,/)`. -/
def splitTreatment (s : String) : List String := (splitSepChars s.data).map List.asString

/-- The element coercion used by every join in the normalizer:
`typeof item === "string" ? item.trim() : String(item)`. -/
def coerceItem (v : JSValue) : String :=
  match v with
  | .str s => jsTrim s
  | _ => jsToString v

/-- Join of the trimmed, non-empty, string-coerced elements with single
spaces (the array branch shared by `ai_comments` and
`recommendations`). -/
def joinNonEmpty (xs : List JSValue) : String :=
  String.intercalate " " ((xs.map coerceItem).filter (fun s => s ≠ ""))

/-- The shared source normalization of steps 7 and 9: a string is used
verbatim, an array is joined, any other non-nullish value is
stringified, a nullish source yields `null`. -/
def normalizeTextSource (src : JSValue) : JSValue :=
  match src with
  | .str s => .str s
  | .arr xs => .str (joinNonEmpty xs)
  | .null => .null
  | .undefined => .null
  | v => .str (jsToString v)

/-- Step 10, `treatment`: arrays are coerced element-wise and filtered,
strings are split on newline / semicolon / comma, anything else yields
`null`. -/
def normalizeTreatmentSource (src : JSValue) : JSValue :=
  match src with
  | .arr xs =>
    .arr (((xs.map coerceItem).filter (fun s => s ≠ "")).map JSValue.str)
  | .str s =>
    .arr ((((splitTreatment s).map jsTrim).filter (fun s => s ≠ "")).map JSValue.str)
  | _ => .null

/-- Step 11, `norwood_score`: a number is kept (all modelled numbers are
finite), a string is scanned for its first numeral, anything else
yields `null`. -/
def normalizeNorwoodSource (src : JSValue) : JSValue :=
  match src with
  | .num q => .num q
  | .str s =>
    match firstNumeral s with
    | some m => .num (parseNumeral m)
    | none => .null
  | _ => .null

/-- Step 2, `entry_id` processing before the fallback: coerce a numeric
id to a string, then trim a string id and strip one `"<entry_type>-"`
composite-id marker. -/
def processedId (entryType idRaw : JSValue) : JSValue :=
  let id1 : JSValue :=
    match idRaw with
    | .num q => .str (jsNumToString q)
    | v => v
  match id1 with
  | .str s =>
    let t := jsTrim s
    let pfx := jsToString entryType ++ "-"
    .str (if jsStartsWith t pfx then strDrop t pfx.length else t)
  | v => v

/-- Step 2, `entry_id` processing: the processed id, with
`String(Date.now())` synthesized when the processed id is falsy. -/
def processEntryId (entryType idRaw : JSValue) (nowMs : Nat) : JSValue :=
  let id2 := processedId entryType idRaw
  if toBool id2 then id2 else .str (jsNatToString nowMs)

/-- `typeof v === "string"` with a non-blank trim, the candidate test of
step 12 and of the `ai_summary` backfill. -/
def isNonBlankString : JSValue → Bool
  | .str s => jsTrim s ≠ ""
  | _ => false

/-- A string that trims to empty (second disjunct of the backfill
condition). -/
def isBlankString : JSValue → Bool
  | .str s => jsTrim s = ""
  | _ => false

/-- Resolved `entry_type` source (step 1). -/
def resolveEntryType (fs : List (String × JSValue)) : JSValue :=
  orD (getField fs "entry_type") (orD (getField fs "type")
    (orD (getField fs "entryType") (orD (getField fs "condition") (.str "hairline"))))

/-- Resolved raw id (step 2). -/
def resolveEntryId (fs : List (String × JSValue)) : JSValue :=
  orD (getField fs "_id") (orD (getField fs "entry_id")
    (orD (getField fs "id") (orD (getField fs "entryId") (getField fs "entryID"))))

/-- Resolved `ai_comments` source (step 7). -/
def resolveAiSource (fs : List (String × JSValue)) : JSValue :=
  orD (getField fs "ai_comments") (orD (getField fs "aiComments")
    (orD (getField fs "ai_comment") (orD (getField fs "aiComment") .null)))

/-- Resolved `recommendations` source (step 9). -/
def resolveRecSource (fs : List (String × JSValue)) : JSValue :=
  orD (getField fs "recommendations") (orD (getField fs "recommendation")
    (orD (getField fs "recommendation_text") (orD (getField fs "recommendationText") .null)))

/-- Resolved `treatment` source (step 10). -/
def resolveTreatmentSource (fs : List (String × JSValue)) : JSValue :=
  orD (getField fs "treatment") (orD (getField fs "treatments")
    (orD (getField fs "recommended_treatments") (orD (getField fs "recommendedTreatments") .null)))

/-- Resolved norwood source (step 11). -/
def resolveNorwoodSource (fs : List (String × JSValue)) : JSValue :=
  orD (getField fs "norwood_score") (orD (getField fs "norwoodScore")
    (orD (getField fs "norwood_stage") .null))

/-- The body of `normalizeEntrySummary` after the object guard, as the
sequence of field reads and writes of the source (reads always go to
the current state of the copied `entry` object). -/
def normalizeEntrySummaryFields (nowMs : Nat) (nowIso : String)
    (fs0 : List (String × JSValue)) : List (String × JSValue) :=
  let entryType := resolveEntryType fs0
  let entryId := processEntryId entryType (resolveEntryId fs0) nowMs
  let fs1 := setField fs0 "entry_id" entryId
  let fs2 := setField fs1 "_id" (orD (getField fs1 "_id") entryId)
  let fs3 := setField fs2 "entry_type" entryType
  let fs4 := setField fs3 "created_at"
    (orD (getField fs3 "created_at") (orD (getField fs3 "createdAt") (.str nowIso)))
  let fs5 := setField fs4 "sequence_id"
    (orD (getField fs4 "sequence_id") (orD (getField fs4 "sequenceId") .null))
  let fs6 := setField fs5 "image_id"
    (orD (getField fs5 "image_id") (orD (getField fs5 "imageId")
      (orD (getField fs5 "photo_id") .null)))
  let fs7 := setField fs6 "photo_url"
    (orD (getField fs6 "photo_url") (orD (getField fs6 "photoUrl") .null))
  let fs8 := setField fs7 "ai_comments" (normalizeTextSource (resolveAiSource fs7))
  let fs9 :=
    if ((!toBool (getField fs8 "ai_summary") || isBlankString (getField fs8 "ai_summary"))
        && isNonBlankString (getField fs8 "ai_comments")) then
      setField fs8 "ai_summary" (getField fs8 "ai_comments")
    else fs8
  let fs10 := setField fs9 "recommendations" (normalizeTextSource (resolveRecSource fs9))
  let fs11 := setField fs10 "treatment" (normalizeTreatmentSource (resolveTreatmentSource fs10))
  let fs12 := setField fs11 "norwood_score" (normalizeNorwoodSource (resolveNorwoodSource fs11))
  let candidates := [getField fs12 "summary", getField fs12 "ai_summary",
    getField fs12 "ai_comments", getField fs12 "recommendations", getField fs12 "user_notes"]
  let fs13 := setField fs12 "summary"
    (match candidates.find? isNonBlankString with
     | some v => v
     | none => .null)
  fs13

/-- `normalizeEntrySummary`, returning the field list of the produced
record, or the thrown error message. -/
def normalizeEntrySummaryE (nowMs : Nat) (nowIso : String) (raw : JSValue) :
    Except String (List (String × JSValue)) :=
  if toBool raw && typeofObject raw then
    .ok (normalizeEntrySummaryFields nowMs nowIso (spreadFields raw))
  else
    .error "Invalid entry summary payload"

/-- `normalizeEntrySummary` as a value-to-value function. -/
def normalizeEntrySummary (nowMs : Nat) (nowIso : String) (raw : JSValue) :
    Except String JSValue :=
  (normalizeEntrySummaryE nowMs nowIso raw).map .obj

/-- `{...base, ...upd}` as a sequence of property writes. -/
def mergeFields (base upd : List (String × JSValue)) : List (String × JSValue) :=
  upd.foldl (fun acc kv => setField acc kv.1 kv.2) base

/-- The non-recursive part of `normalizeEntryDetail`: summary
normalization of `raw ?? {}`, the `{...raw, ...entry}` merge, and the
`analysis` / `medications` defaults. -/
def normalizeEntryDetailCore (nowMs : Nat) (nowIso : String) (raw : JSValue) :
    Except String JSValue :=
  match normalizeEntrySummaryE nowMs nowIso (orD raw (.obj [])) with
  | .error e => .error e
  | .ok efs =>
    let dfs := mergeFields (spreadFields raw) efs
    let dfs1 := setField dfs "analysis"
      (orD (getField dfs "analysis") (orD (getField dfs "details") .null))
    let dfs2 := setField dfs1 "medications"
      (orD (getField dfs1 "medications") (orD (getField dfs1 "current_medications") (.arr [])))
    .ok (.obj dfs2)

/-- The recursive envelope unwrap of `normalizeEntryDetail`: a truthy
object with an `entry` property is unwrapped and re-normalized. -/
def normalizeEntryDetail (nowMs : Nat) (nowIso : String) : JSValue → Except String JSValue
  | .obj fields =>
    match h : fields.find? (fun p => p.1 = "entry") with
    | some p => normalizeEntryDetail nowMs nowIso p.2
    | none => normalizeEntryDetailCore nowMs nowIso (.obj fields)
  | raw => normalizeEntryDetailCore nowMs nowIso raw
termination_by v => sizeOf v
decreasing_by
  have hmem := List.mem_of_find?_eq_some h
  have hlt := List.sizeOf_lt_of_mem hmem
  cases p with
  | mk a b => simp at hlt ⊢ ; omega

/-- The `ai_summary` backfill condition of step 8, expressed over the
raw fields. -/
def backfillCond (fs : List (String × JSValue)) : Bool :=
  (!toBool (getField fs "ai_summary") || isBlankString (getField fs "ai_summary"))
    && isNonBlankString (normalizeTextSource (resolveAiSource fs))

/-- The `ai_summary` value of the normalized record, over the raw
fields. -/
def aiSummaryValue (fs : List (String × JSValue)) : JSValue :=
  if backfillCond fs then normalizeTextSource (resolveAiSource fs)
  else getField fs "ai_summary"

/-- The `summary` value of the normalized record (step 12), over the
raw fields. -/
def summaryValue (fs : List (String × JSValue)) : JSValue :=
  match ([getField fs "summary", aiSummaryValue fs,
      normalizeTextSource (resolveAiSource fs), normalizeTextSource (resolveRecSource fs),
      getField fs "user_notes"].find? isNonBlankString) with
  | some v => v
  | none => .null

/-- An HTTP response as seen by `apiFetch` after `await fetch`: the
status code and the full body text (`await response.text()`).
`response.ok` is derived, as the `fetch` specification defines it. -/
structure HttpResponse where
  status : Nat
  text : String

/-- `response.ok`: status in the inclusive range 200 to 299. -/
def responseOk (r : HttpResponse) : Bool := 200 ≤ r.status && r.status ≤ 299

/-- Outcome of `apiFetch` on a received response: the returned data, or
the thrown `ApiError` with its `message`, `status` and `body` fields. -/
inductive FetchResult where
  | ok (data : JSValue)
  | apiError (message : String) (statusCode : Nat) (body : JSValue)

/-- The response handling of `apiFetch`: body text read in full, JSON
parse attempted on a non-empty body with the raw text kept on parse
failure, then the `response.ok` dispatch.  `JSON.parse` is an external
runtime facility and is passed in as `parse` (returning `none` where
`JSON.parse` would throw). -/
def apiFetchHandle (parse : String → Option JSValue) (r : HttpResponse) : FetchResult :=
  let data : JSValue :=
    if r.text = "" then .null
    else
      match parse r.text with
      | some v => v
      | none => .str r.text
  if !responseOk r then
    .apiError ("Request failed with status " ++ jsNatToString r.status) r.status data
  else
    .ok data

/-- The best-effort payload the specification describes: parsed JSON if
the body parses, otherwise the raw text, `null` when empty. -/
def bestEffortBody (parse : String → Option JSValue) (text : String) : JSValue :=
  if text = "" then .null
  else
    match parse text with
    | some v => v
    | none => .str text

/-- A queued HTTP request as handed to the transport layer. -/
structure ApiRequest where
  path : String
  method : String
  body : Option String

/-- Guarded `updateMedication` of the current snapshot: validates the id
locally, then builds the PUT request on the trimmed id.  The
`JSON.stringify(payload)` body is passed in already serialized. -/
def updateMedication (medicationId : String) (payloadJson : String) :
    Except String ApiRequest :=
  if medicationId = "" || jsTrim medicationId = "" || medicationId = "undefined" then
    .error "Invalid medication ID provided"
  else
    .ok ⟨"/medications/" ++ jsTrim medicationId, "PUT", some payloadJson⟩

/-- Guarded `deleteMedication` of the current snapshot. -/
def deleteMedication (medicationId : String) : Except String ApiRequest :=
  if medicationId = "" || jsTrim medicationId = "" || medicationId = "undefined" then
    .error "Invalid medication ID provided"
  else
    .ok ⟨"/medications/" ++ jsTrim medicationId, "DELETE", none⟩

/-- `updateMedication` of the legacy snapshot: no validation, the id is
interpolated into the path untrimmed. -/
def updateMedicationLegacy (medicationId : String) (payloadJson : String) :
    Except String ApiRequest :=
  .ok ⟨"/medications/" ++ medicationId, "PUT", some payloadJson⟩

/-- `deleteMedication` of the legacy snapshot: no validation. -/
def deleteMedicationLegacy (medicationId : String) : Except String ApiRequest :=
  .ok ⟨"/medications/" ++ medicationId, "DELETE", none⟩

/-- A JavaScript object in the sense of the normalizer guard: a truthy
value of `typeof` object, i.e. an array or a plain object (not `null`,
`undefined` or a primitive). -/
def isJsObject : JSValue → Bool
  | .obj _ => true
  | .arr _ => true
  | _ => false

/-- Resolved raw ids that the entry id pipeline turns into a string: a
nullish or falsy value, a number, or a string.  (A truthy object, array
or boolean id is carried through unchanged.) -/
def idCoercible : JSValue → Bool
  | .obj _ => false
  | .arr _ => false
  | .bool b => !b
  | _ => true

/-- First candidate passing the non-blank-string test of step 12. -/
def firstNonBlank (l : List JSValue) : JSValue :=
  match l.find? isNonBlankString with
  | some v => v
  | none => .null

/-- Concrete already-normalized input for the C2 witness. -/
def c2WitnessFields : List (String × JSValue) :=
  [("entry_id", .str "abc"), ("entry_type", .str "mole")]

/-! ### Theorems -/

theorem getField_setField (fs : List (String × JSValue)) (k k2 : String) (v : JSValue) :
    getField (setField fs k v) k2 = if k2 = k then v else getField fs k2 := by
  induction fs with
  | nil =>
    rcases eq_or_ne k2 k with h | h
    · subst h; simp [getField, setField]
    · simp [getField, setField, h, Ne.symm h]
  | cons p rest ih =>
    obtain ⟨a, b⟩ := p
    rcases eq_or_ne a k with hak | hak <;> rcases eq_or_ne k2 k with hk2 | hk2
    · subst hak; subst hk2; simp [getField, setField]
    · subst hak; simp [getField, setField, hk2, Ne.symm hk2]
    · subst hk2; simp [getField, setField, hak, ih, Ne.symm hak]
    · simp [getField, setField, hak, hk2, ih]

theorem nullish_orD (a b : JSValue) : nullish (orD a b) = (nullish a && nullish b) := by
  by_cases h : nullish a <;> simp [orD, h]

theorem orD_of_not_nullish {a : JSValue} (b : JSValue) (h : nullish a = false) :
    orD a b = a := by simp [orD, h]

theorem orD_of_nullish {a : JSValue} (b : JSValue) (h : nullish a = true) :
    orD a b = b := by simp [orD, h]

theorem norm_entry_type (nowMs : Nat) (nowIso : String) (fs : List (String × JSValue)) :
    getField (normalizeEntrySummaryFields nowMs nowIso fs) "entry_type" = resolveEntryType fs := by
  simp only [normalizeEntrySummaryFields]
  split <;> simp [getField_setField]

theorem norm_entry_id (nowMs : Nat) (nowIso : String) (fs : List (String × JSValue)) :
    getField (normalizeEntrySummaryFields nowMs nowIso fs) "entry_id"
      = processEntryId (resolveEntryType fs) (resolveEntryId fs) nowMs := by
  simp only [normalizeEntrySummaryFields]
  split <;> simp [getField_setField]

theorem norm_uid (nowMs : Nat) (nowIso : String) (fs : List (String × JSValue)) :
    getField (normalizeEntrySummaryFields nowMs nowIso fs) "_id"
      = orD (getField fs "_id")
          (processEntryId (resolveEntryType fs) (resolveEntryId fs) nowMs) := by
  simp only [normalizeEntrySummaryFields]
  split <;> simp [getField_setField]

theorem norm_created_at (nowMs : Nat) (nowIso : String) (fs : List (String × JSValue)) :
    getField (normalizeEntrySummaryFields nowMs nowIso fs) "created_at"
      = orD (getField fs "created_at") (orD (getField fs "createdAt") (.str nowIso)) := by
  simp only [normalizeEntrySummaryFields]
  split <;> simp [getField_setField]

theorem norm_sequence_id (nowMs : Nat) (nowIso : String) (fs : List (String × JSValue)) :
    getField (normalizeEntrySummaryFields nowMs nowIso fs) "sequence_id"
      = orD (getField fs "sequence_id") (orD (getField fs "sequenceId") .null) := by
  simp only [normalizeEntrySummaryFields]
  split <;> simp [getField_setField]

theorem norm_image_id (nowMs : Nat) (nowIso : String) (fs : List (String × JSValue)) :
    getField (normalizeEntrySummaryFields nowMs nowIso fs) "image_id"
      = orD (getField fs "image_id")
          (orD (getField fs "imageId") (orD (getField fs "photo_id") .null)) := by
  simp only [normalizeEntrySummaryFields]
  split <;> simp [getField_setField]

theorem norm_photo_url (nowMs : Nat) (nowIso : String) (fs : List (String × JSValue)) :
    getField (normalizeEntrySummaryFields nowMs nowIso fs) "photo_url"
      = orD (getField fs "photo_url") (orD (getField fs "photoUrl") .null) := by
  simp only [normalizeEntrySummaryFields]
  split <;> simp [getField_setField]

theorem norm_ai_comments (nowMs : Nat) (nowIso : String) (fs : List (String × JSValue)) :
    getField (normalizeEntrySummaryFields nowMs nowIso fs) "ai_comments"
      = normalizeTextSource (resolveAiSource fs) := by
  simp only [normalizeEntrySummaryFields]
  split <;> simp [getField_setField, resolveAiSource]

theorem norm_ai_summary (nowMs : Nat) (nowIso : String) (fs : List (String × JSValue)) :
    getField (normalizeEntrySummaryFields nowMs nowIso fs) "ai_summary"
      = aiSummaryValue fs := by
  simp only [normalizeEntrySummaryFields]
  split <;> rename_i hc <;>
    simp only [resolveAiSource, getField_setField, String.reduceEq, reduceIte] at hc <;>
    simp [aiSummaryValue, backfillCond, getField_setField, resolveAiSource, hc]

theorem norm_recommendations (nowMs : Nat) (nowIso : String) (fs : List (String × JSValue)) :
    getField (normalizeEntrySummaryFields nowMs nowIso fs) "recommendations"
      = normalizeTextSource (resolveRecSource fs) := by
  simp only [normalizeEntrySummaryFields]
  split <;> simp [getField_setField, resolveRecSource]

theorem norm_treatment (nowMs : Nat) (nowIso : String) (fs : List (String × JSValue)) :
    getField (normalizeEntrySummaryFields nowMs nowIso fs) "treatment"
      = normalizeTreatmentSource (resolveTreatmentSource fs) := by
  simp only [normalizeEntrySummaryFields]
  split <;> simp [getField_setField, resolveTreatmentSource]

theorem norm_norwood (nowMs : Nat) (nowIso : String) (fs : List (String × JSValue)) :
    getField (normalizeEntrySummaryFields nowMs nowIso fs) "norwood_score"
      = normalizeNorwoodSource (resolveNorwoodSource fs) := by
  simp only [normalizeEntrySummaryFields]
  split <;> simp [getField_setField, resolveNorwoodSource]

theorem norm_summary (nowMs : Nat) (nowIso : String) (fs : List (String × JSValue)) :
    getField (normalizeEntrySummaryFields nowMs nowIso fs) "summary"
      = summaryValue fs := by
  simp only [normalizeEntrySummaryFields]
  split <;> rename_i hc <;>
    simp only [resolveAiSource, getField_setField, String.reduceEq, reduceIte] at hc <;>
    simp [summaryValue, aiSummaryValue, backfillCond, getField_setField,
      resolveAiSource, resolveRecSource, hc]

theorem norm_frame (nowMs : Nat) (nowIso : String) (fs : List (String × JSValue))
    (k : String)
    (h : k ∉ ["entry_id", "_id", "entry_type", "created_at", "sequence_id", "image_id",
      "photo_url", "ai_comments", "ai_summary", "recommendations", "treatment",
      "norwood_score", "summary"]) :
    getField (normalizeEntrySummaryFields nowMs nowIso fs) k = getField fs k := by
  simp only [List.mem_cons, List.mem_singleton, not_or] at h
  obtain ⟨h1, h2, h3, h4, h5, h6, h7, h8, h9, h10, h11, h12, h13, _⟩ := h
  simp only [normalizeEntrySummaryFields]
  split <;>
    simp [getField_setField, h1, h2, h3, h4, h5, h6, h7, h8, h9, h10, h11, h12, h13]

theorem responseOk_false {r : HttpResponse} (h : ¬(200 ≤ r.status ∧ r.status ≤ 299)) :
    responseOk r = false := by
  simp only [responseOk]
  rcases Nat.lt_or_ge r.status 200 with h1 | h1
  · simp [Nat.not_le_of_lt h1]
  · have h2 : ¬ r.status ≤ 299 := fun hc => h ⟨h1, hc⟩
    simp [h1, h2]

/-- C4: for every response with a non-2xx status, `apiFetch` throws an
`ApiError` whose `statusCode` field is the HTTP status and whose `body`
field is the best-effort parsed payload (parsed JSON when the body
parses, the raw text otherwise, `null` when empty); the thrown error
never lacks these fields. -/
theorem apiFetch_error_statusCode_body (parse : String → Option JSValue)
    (r : HttpResponse) (h : ¬(200 ≤ r.status ∧ r.status ≤ 299)) :
    apiFetchHandle parse r
      = .apiError ("Request failed with status " ++ jsNatToString r.status) r.status
          (bestEffortBody parse r.text) := by
  simp [apiFetchHandle, bestEffortBody, responseOk_false h]

/-- Witness for C4 at a concrete 404 response with a non-JSON body. -/
theorem apiFetch_error_statusCode_body_witness :
    ¬((200:Nat) ≤ 404 ∧ (404:Nat) ≤ 299) ∧
    apiFetchHandle (fun _ => none) ⟨404, "oops"⟩
      = .apiError ("Request failed with status " ++ jsNatToString 404) 404
          (bestEffortBody (fun _ => none) "oops") :=
  ⟨by decide, apiFetch_error_statusCode_body (fun _ => none) ⟨404, "oops"⟩ (by decide)⟩

/-- C5: for every 2xx response, `apiFetch` returns `null` on an empty
body, the JSON-parsed body when the non-empty body text parses, and the
raw text when parsing fails. -/
theorem apiFetch_success_body (parse : String → Option JSValue)
    (r : HttpResponse) (h : 200 ≤ r.status ∧ r.status ≤ 299) :
    (r.text = "" → apiFetchHandle parse r = .ok .null)
    ∧ (∀ v, r.text ≠ "" → parse r.text = some v → apiFetchHandle parse r = .ok v)
    ∧ (r.text ≠ "" → parse r.text = none → apiFetchHandle parse r = .ok (.str r.text)) := by
  have hok : responseOk r = true := by simp [responseOk, h.1, h.2]
  refine ⟨fun he => ?_, fun v hne hp => ?_, fun hne hp => ?_⟩ <;>
    simp [apiFetchHandle, hok, *]

/-- Witness for C5 at a concrete 200 response whose body parses. -/
theorem apiFetch_success_body_witness :
    ((200:Nat) ≤ 200 ∧ (200:Nat) ≤ 299) ∧
    apiFetchHandle (fun s => if s = "[]" then some (.arr []) else none) ⟨200, "[]"⟩
      = .ok (.arr []) :=
  ⟨by decide,
    (apiFetch_success_body (fun s => if s = "[]" then some (.arr []) else none)
      ⟨200, "[]"⟩ (by decide)).2.1 (.arr []) (by decide) (by rfl)⟩

/-- C6: `normalizeEntrySummary` throws exactly on non-object arguments
(`null`, `undefined` or a primitive), and returns normally on every
object argument. -/
theorem normalizeEntrySummary_throws_iff (nowMs : Nat) (nowIso : String) (raw : JSValue) :
    ((∃ e, normalizeEntrySummary nowMs nowIso raw = .error e) ↔ isJsObject raw = false)
    ∧ ((∃ out, normalizeEntrySummary nowMs nowIso raw = .ok out) ↔ isJsObject raw = true) := by
  cases raw <;>
    simp [normalizeEntrySummary, normalizeEntrySummaryE, toBool, typeofObject, isJsObject,
      Except.map]

/-- C7: normalizing an envelope holding `p` under the `entry` key (at a
given instant) gives exactly the result of normalizing the object `p`
directly at the same instant. -/
theorem normalizeEntryDetail_unwraps_envelope (nowMs : Nat) (nowIso : String)
    (fs : List (String × JSValue)) :
    normalizeEntryDetail nowMs nowIso (.obj [("entry", .obj fs)])
      = normalizeEntryDetail nowMs nowIso (.obj fs) := by
  rw [normalizeEntryDetail]
  split <;> rename_i hsp <;> simp [List.find?] at hsp
  rw [← hsp]

/-- C10: every key of the raw payload outside the thirteen canonical
output fields is carried through to the normalized record unchanged. -/
theorem normalizeEntrySummary_preserves_unknown_fields (nowMs : Nat) (nowIso : String)
    (fs : List (String × JSValue)) (k : String)
    (h : k ∉ ["entry_id", "_id", "entry_type", "created_at", "sequence_id", "image_id",
      "photo_url", "ai_comments", "ai_summary", "recommendations", "treatment",
      "norwood_score", "summary"]) :
    ∃ out, normalizeEntrySummary nowMs nowIso (.obj fs) = .ok (.obj out)
      ∧ getField out k = getField fs k := by
  refine ⟨normalizeEntrySummaryFields nowMs nowIso fs, ?_, norm_frame nowMs nowIso fs k h⟩
  simp [normalizeEntrySummary, normalizeEntrySummaryE, toBool, typeofObject, spreadFields,
    Except.map]

/-- Witness for C10: an alias field (`aiComments`) is kept verbatim. -/
theorem normalizeEntrySummary_preserves_unknown_fields_witness :
    ∃ out, normalizeEntrySummary 0 "t" (.obj [("aiComments", .str "hi")]) = .ok (.obj out)
      ∧ getField out "aiComments" = getField [("aiComments", JSValue.str "hi")] "aiComments" :=
  normalizeEntrySummary_preserves_unknown_fields 0 "t" [("aiComments", .str "hi")]
    "aiComments" (by decide)

/-- C3 counterexample: the legacy snapshot medication operations perform
no local id validation; with id `"undefined"` or whitespace the request
is handed to the transport layer instead of failing. -/
theorem medication_legacy_no_validation :
    updateMedicationLegacy "undefined" "p" = .ok ⟨"/medications/undefined", "PUT", some "p"⟩
    ∧ deleteMedicationLegacy "   " = .ok ⟨"/medications/   ", "DELETE", none⟩ :=
  ⟨rfl, rfl⟩

/-- C3 (amended): the guarded `updateMedication` / `deleteMedication` of
the current snapshot fail with a local validation error exactly when
the id is empty, all-whitespace, or the literal `"undefined"`, and
otherwise hand the request to the transport layer; the legacy snapshot
variants always proceed to the transport layer. -/
theorem medication_id_validation (id payload : String) :
    ((∃ e, updateMedication id payload = .error e)
        ↔ (id = "" ∨ jsTrim id = "" ∨ id = "undefined"))
    ∧ ((∃ e, deleteMedication id = .error e)
        ↔ (id = "" ∨ jsTrim id = "" ∨ id = "undefined"))
    ∧ (¬(id = "" ∨ jsTrim id = "" ∨ id = "undefined") →
        updateMedication id payload = .ok ⟨"/medications/" ++ jsTrim id, "PUT", some payload⟩
        ∧ deleteMedication id = .ok ⟨"/medications/" ++ jsTrim id, "DELETE", none⟩)
    ∧ (∃ req, updateMedicationLegacy id payload = .ok req)
    ∧ (∃ req, deleteMedicationLegacy id = .ok req) := by
  by_cases hbad : id = "" ∨ jsTrim id = "" ∨ id = "undefined"
  · refine ⟨?_, ?_, fun hc => absurd hbad hc, ⟨_, rfl⟩, ⟨_, rfl⟩⟩ <;>
      rcases hbad with h | h | h <;>
      simp [updateMedication, deleteMedication, h]
  · push_neg at hbad
    obtain ⟨h1, h2, h3⟩ := hbad
    refine ⟨?_, ?_, fun _ => ?_, ⟨_, rfl⟩, ⟨_, rfl⟩⟩ <;>
      simp [updateMedication, deleteMedication, h1, h2, h3]

/-- Witness for C3: a well-formed id reaches the transport layer. -/
theorem medication_id_validation_witness :
    ¬(("med1":String) = "" ∨ jsTrim "med1" = "" ∨ ("med1":String) = "undefined") ∧
    updateMedication "med1" "p" = .ok ⟨"/medications/" ++ jsTrim "med1", "PUT", some "p"⟩ ∧
    deleteMedication "med1" = .ok ⟨"/medications/" ++ jsTrim "med1", "DELETE", none⟩ :=
  ⟨by decide,
    ((medication_id_validation "med1" "p").2.2.1 (by decide)).1,
    ((medication_id_validation "med1" "p").2.2.1 (by decide)).2⟩

/-- C9: array `ai_comments` sources are joined (trimmed, non-empty,
string-coerced elements, single spaces), and string norwood sources are
parsed by first-numeral extraction. -/
theorem normalize_join_and_norwood_parse (nowMs : Nat) (nowIso : String)
    (fs : List (String × JSValue)) :
    (∀ xs, resolveAiSource fs = .arr xs →
      getField (normalizeEntrySummaryFields nowMs nowIso fs) "ai_comments"
        = .str (String.intercalate " " ((xs.map coerceItem).filter (fun s => s ≠ ""))))
    ∧ (∀ s, resolveNorwoodSource fs = .str s →
      getField (normalizeEntrySummaryFields nowMs nowIso fs) "norwood_score"
        = (match firstNumeral s with
           | some m => .num (parseNumeral m)
           | none => .null)) := by
  constructor
  · intro xs hx
    rw [norm_ai_comments, hx]
    rfl
  · intro s hs
    rw [norm_norwood, hs]
    rfl

/-- Witness for C9: the two worked examples of the specification. -/
theorem normalize_join_and_norwood_parse_witness :
    resolveAiSource [("aiComments", JSValue.arr [.str "Mild redness.", .str "  ",
        .str "Monitor weekly."]), ("norwood_stage", JSValue.str "Stage 2.5 progression")]
      = .arr [.str "Mild redness.", .str "  ", .str "Monitor weekly."]
    ∧ resolveNorwoodSource [("aiComments", JSValue.arr [.str "Mild redness.", .str "  ",
        .str "Monitor weekly."]), ("norwood_stage", JSValue.str "Stage 2.5 progression")]
      = .str "Stage 2.5 progression"
    ∧ getField (normalizeEntrySummaryFields 0 "t" [("aiComments", JSValue.arr [.str "Mild redness.",
        .str "  ", .str "Monitor weekly."]), ("norwood_stage", JSValue.str "Stage 2.5 progression")])
        "ai_comments" = .str "Mild redness. Monitor weekly."
    ∧ getField (normalizeEntrySummaryFields 0 "t" [("aiComments", JSValue.arr [.str "Mild redness.",
        .str "  ", .str "Monitor weekly."]), ("norwood_stage", JSValue.str "Stage 2.5 progression")])
        "norwood_score" = .num (2.5 : Rat) := by
  have h := normalize_join_and_norwood_parse 0 "t"
    [("aiComments", JSValue.arr [.str "Mild redness.", .str "  ", .str "Monitor weekly."]),
     ("norwood_stage", JSValue.str "Stage 2.5 progression")]
  refine ⟨rfl, rfl, (h.1 _ rfl).trans (by rfl), (h.2 "Stage 2.5 progression" rfl).trans ?_⟩
  show JSValue.num (parseNumeral "2.5") = .num (2.5 : Rat)
  simp only [JSValue.num.injEq]
  simp [parseNumeral, digitsToNat]
  norm_num

/-- C8 counterexample: a string id that is exactly the composite marker
(`"mole-"` with entry type `"mole"`) strips to the empty string, which
the code replaces with a synthesized timestamp id instead of the
stripped string the claim requires. -/
theorem entry_id_marker_strip_to_empty_synthesizes :
    jsTrim "mole-" = "mole" ++ "-" ++ ""
    ∧ getField (normalizeEntrySummaryFields 3 "t"
        [("entry_id", .str "mole-"), ("entry_type", .str "mole")]) "entry_id" = .str "3"
    ∧ JSValue.str "3" ≠ .str "" :=
  ⟨by decide, rfl, by simp⟩

/-- C8 (amended): when the resolved id is a string whose trim splits as
the resolved entry type, a dash, and a non-empty remainder, the
normalized `entry_id` is exactly that remainder (one marker copy
stripped after trimming); when the remainder is empty the id is
synthesized instead.  Numeric resolved ids are first coerced to their
decimal string and then processed by the same string path. -/
theorem entry_id_strips_entry_type_marker (nowMs : Nat) (nowIso : String)
    (fs : List (String × JSValue)) (ty s r : String)
    (hty : resolveEntryType fs = .str ty)
    (hid : resolveEntryId fs = .str s)
    (hsplit : jsTrim s = ty ++ "-" ++ r)
    (hne : r ≠ "") :
    getField (normalizeEntrySummaryFields nowMs nowIso fs) "entry_id" = .str r
    ∧ ∀ (t : JSValue) (q : Rat) (n : Nat),
        processEntryId t (.num q) n = processEntryId t (.str (jsNumToString q)) n := by
  refine ⟨?_, fun t q n => rfl⟩
  rw [norm_entry_id, hty, hid]
  have hpre : jsStartsWith (jsTrim s) (ty ++ "-") = true := by
    rw [hsplit]
    unfold jsStartsWith
    rw [String.data_append]
    exact List.isPrefixOf_iff_prefix.mpr (List.prefix_append _ _)
  have hdrop : strDrop (jsTrim s) (ty ++ "-").length = r := by
    rw [hsplit]
    unfold strDrop
    rw [String.data_append]
    rw [show (ty ++ "-").length = (ty ++ "-").data.length from rfl, List.drop_left]
  simp only [processEntryId, processedId, jsToString]
  rw [hpre, hdrop]
  simp [toBool, hne]

/-- Witness for C8 at the worked example of the specification. -/
theorem entry_id_strips_entry_type_marker_witness :
    resolveEntryType [("entry_id", JSValue.str "mole-abc123"),
        ("entry_type", JSValue.str "mole")] = .str "mole"
    ∧ resolveEntryId [("entry_id", JSValue.str "mole-abc123"),
        ("entry_type", JSValue.str "mole")] = .str "mole-abc123"
    ∧ jsTrim "mole-abc123" = "mole" ++ "-" ++ "abc123"
    ∧ getField (normalizeEntrySummaryFields 0 "t" [("entry_id", JSValue.str "mole-abc123"),
        ("entry_type", JSValue.str "mole")]) "entry_id" = .str "abc123" :=
  ⟨rfl, rfl, by decide,
    (entry_id_strips_entry_type_marker 0 "t"
      [("entry_id", JSValue.str "mole-abc123"), ("entry_type", JSValue.str "mole")]
      "mole" "mole-abc123" "abc123" rfl rfl (by decide) (by decide)).1⟩

theorem natDigitsAux_ne_nil (fuel n : Nat) : natDigitsAux (fuel + 1) n ≠ [] := by
  unfold natDigitsAux
  split <;> simp

theorem jsNatToString_ne_empty (n : Nat) : jsNatToString n ≠ "" := by
  unfold jsNatToString
  intro h
  exact natDigitsAux_ne_nil n n (congrArg String.data h)

theorem toBool_str_ne (X : String) (n : Nat) :
    ∃ s, (if toBool (.str X) then JSValue.str X else .str (jsNatToString n)) = .str s ∧ s ≠ "" := by
  by_cases hx : X = ""
  · refine ⟨jsNatToString n, ?_, jsNatToString_ne_empty n⟩
    simp [toBool, hx]
  · exact ⟨X, by simp [toBool, hx], hx⟩

theorem processEntryId_coercible (ty v : JSValue) (n : Nat) (h : idCoercible v = true) :
    ∃ s, processEntryId ty v n = .str s ∧ s ≠ "" := by
  cases v with
  | bool b =>
    cases b with
    | false =>
      refine ⟨jsNatToString n, ?_, jsNatToString_ne_empty n⟩
      simp [processEntryId, processedId, toBool]
    | true => simp [idCoercible] at h
  | num q => exact toBool_str_ne _ n
  | str s => exact toBool_str_ne _ n
  | null =>
    refine ⟨jsNatToString n, ?_, jsNatToString_ne_empty n⟩
    simp [processEntryId, processedId, toBool]
  | undefined =>
    refine ⟨jsNatToString n, ?_, jsNatToString_ne_empty n⟩
    simp [processEntryId, processedId, toBool]
  | arr xs => simp [idCoercible] at h
  | obj fs2 => simp [idCoercible] at h

/-- C1 counterexample: an unrecognized `type` string is carried into
`entry_type` unchanged, and a truthy non-string, non-number `_id` (an
object) survives as a non-string `entry_id`. -/
theorem entry_type_and_id_passthrough_cex :
    getField (normalizeEntrySummaryFields 0 "t" [("type", .str "banana")]) "entry_type"
      = .str "banana"
    ∧ JSValue.str "banana" ∉ [JSValue.str "hairline", JSValue.str "acne", JSValue.str "mole"]
    ∧ getField (normalizeEntrySummaryFields 0 "t" [("_id", .obj [("a", .num 1)])]) "entry_id"
      = .obj [("a", .num 1)]
    ∧ ∀ s, JSValue.obj [("a", .num 1)] ≠ .str s :=
  ⟨rfl, by simp, rfl, fun _ h => JSValue.noConfusion h⟩

/-- C1 (amended): `entry_type` is the resolved alias value and lies in
the three condition names whenever that resolved value does (in
particular whenever the alias fields are absent, since the default is
`hairline`); `entry_id` is a non-empty string whenever the resolved raw
id is nullish, falsy, a number or a string, and is the stringified
current time when the resolved raw id is nullish. -/
theorem normalize_entry_type_and_id (nowMs : Nat) (nowIso : String)
    (fs : List (String × JSValue)) :
    (resolveEntryType fs ∈ [JSValue.str "hairline", JSValue.str "acne", JSValue.str "mole"] →
      getField (normalizeEntrySummaryFields nowMs nowIso fs) "entry_type"
        ∈ [JSValue.str "hairline", JSValue.str "acne", JSValue.str "mole"])
    ∧ (idCoercible (resolveEntryId fs) = true →
      ∃ s, getField (normalizeEntrySummaryFields nowMs nowIso fs) "entry_id" = .str s ∧ s ≠ "")
    ∧ (nullish (resolveEntryId fs) = true →
      getField (normalizeEntrySummaryFields nowMs nowIso fs) "entry_id"
        = .str (jsNatToString nowMs)) := by
  refine ⟨fun h => ?_, fun h => ?_, fun h => ?_⟩
  · rwa [norm_entry_type]
  · rw [norm_entry_id]
    exact processEntryId_coercible _ _ _ h
  · rw [norm_entry_id]
    cases hv : resolveEntryId fs <;> rw [hv] at h <;> simp [nullish] at h <;>
      simp [processEntryId, processedId, toBool]

/-- Witness for C1: a payload with only a camelCase type alias gets a
synthesized non-empty id and a valid entry type. -/
theorem normalize_entry_type_and_id_witness :
    getField (normalizeEntrySummaryFields 5 "t" [("type", JSValue.str "acne")]) "entry_type"
      ∈ [JSValue.str "hairline", JSValue.str "acne", JSValue.str "mole"]
    ∧ (∃ s, getField (normalizeEntrySummaryFields 5 "t" [("type", JSValue.str "acne")])
        "entry_id" = .str s ∧ s ≠ "")
    ∧ getField (normalizeEntrySummaryFields 5 "t" [("type", JSValue.str "acne")]) "entry_id"
      = .str (jsNatToString 5) := by
  have h := normalize_entry_type_and_id 5 "t" [("type", JSValue.str "acne")]
  refine ⟨h.1 ?_, h.2.1 rfl, h.2.2 rfl⟩
  rw [show resolveEntryType [("type", JSValue.str "acne")] = .str "acne" from rfl]
  simp

theorem nullish_null : nullish .null = true := rfl

theorem nullish_str (s : String) : nullish (.str s) = false := rfl

theorem orD_self (a : JSValue) : orD a a = a := by
  by_cases h : nullish a = true <;> simp [orD, h]

theorem nullish_of_toBool {v : JSValue} (h : toBool v = true) : nullish v = false := by
  cases v <;> simp_all [toBool, nullish]

theorem orD_alias2 (a b : JSValue) :
    orD (orD a (orD b .null)) (orD b .null) = orD a (orD b .null) := by
  by_cases ha : nullish a = true <;> by_cases hb : nullish b = true <;>
    simp [orD, ha, hb, nullish_null]

theorem orD_alias3 (a b c : JSValue) :
    orD (orD a (orD b (orD c .null))) (orD b (orD c .null))
      = orD a (orD b (orD c .null)) := by
  by_cases ha : nullish a = true <;> by_cases hb : nullish b = true <;>
    by_cases hc : nullish c = true <;> simp [orD, ha, hb, hc, nullish_null]

theorem nullish_resolveEntryType (fs : List (String × JSValue)) :
    nullish (resolveEntryType fs) = false := by
  simp [resolveEntryType, nullish_orD, nullish_str]

theorem nullish_processEntryId (ty v : JSValue) (n : Nat) :
    nullish (processEntryId ty v n) = false := by
  simp only [processEntryId]
  split <;> rename_i h
  · exact nullish_of_toBool h
  · exact nullish_str _

theorem resolveEntryType_stable (nowMs : Nat) (nowIso : String) (fs : List (String × JSValue)) :
    resolveEntryType (normalizeEntrySummaryFields nowMs nowIso fs) = resolveEntryType fs := by
  have hshow : resolveEntryType (normalizeEntrySummaryFields nowMs nowIso fs)
      = orD (getField (normalizeEntrySummaryFields nowMs nowIso fs) "entry_type")
          (orD (getField (normalizeEntrySummaryFields nowMs nowIso fs) "type")
            (orD (getField (normalizeEntrySummaryFields nowMs nowIso fs) "entryType")
              (orD (getField (normalizeEntrySummaryFields nowMs nowIso fs) "condition")
                (.str "hairline")))) := rfl
  rw [hshow, norm_entry_type]
  exact orD_of_not_nullish _ (nullish_resolveEntryType fs)

theorem resolveEntryId_stable (nowMs : Nat) (nowIso : String) (fs : List (String × JSValue)) :
    resolveEntryId (normalizeEntrySummaryFields nowMs nowIso fs)
      = orD (getField fs "_id")
          (processEntryId (resolveEntryType fs) (resolveEntryId fs) nowMs) := by
  have hshow : resolveEntryId (normalizeEntrySummaryFields nowMs nowIso fs)
      = orD (getField (normalizeEntrySummaryFields nowMs nowIso fs) "_id")
          (orD (getField (normalizeEntrySummaryFields nowMs nowIso fs) "entry_id")
            (orD (getField (normalizeEntrySummaryFields nowMs nowIso fs) "id")
              (orD (getField (normalizeEntrySummaryFields nowMs nowIso fs) "entryId")
                (getField (normalizeEntrySummaryFields nowMs nowIso fs) "entryID")))) := rfl
  rw [hshow, norm_uid]
  apply orD_of_not_nullish
  rw [nullish_orD, nullish_processEntryId]
  simp

theorem created_at_stable (nowMs : Nat) (nowIso : String) (nowMs2 : Nat) (nowIso2 : String)
    (fs : List (String × JSValue)) :
    getField (normalizeEntrySummaryFields nowMs2 nowIso2
        (normalizeEntrySummaryFields nowMs nowIso fs)) "created_at"
      = getField (normalizeEntrySummaryFields nowMs nowIso fs) "created_at" := by
  rw [norm_created_at]
  apply orD_of_not_nullish
  rw [norm_created_at]
  simp [nullish_orD, nullish_str]

theorem sequence_id_stable (nowMs : Nat) (nowIso : String) (nowMs2 : Nat) (nowIso2 : String)
    (fs : List (String × JSValue)) :
    getField (normalizeEntrySummaryFields nowMs2 nowIso2
        (normalizeEntrySummaryFields nowMs nowIso fs)) "sequence_id"
      = getField (normalizeEntrySummaryFields nowMs nowIso fs) "sequence_id" := by
  rw [norm_sequence_id, norm_frame nowMs nowIso fs "sequenceId" (by decide),
    norm_sequence_id nowMs nowIso fs]
  exact orD_alias2 _ _

theorem image_id_stable (nowMs : Nat) (nowIso : String) (nowMs2 : Nat) (nowIso2 : String)
    (fs : List (String × JSValue)) :
    getField (normalizeEntrySummaryFields nowMs2 nowIso2
        (normalizeEntrySummaryFields nowMs nowIso fs)) "image_id"
      = getField (normalizeEntrySummaryFields nowMs nowIso fs) "image_id" := by
  rw [norm_image_id, norm_frame nowMs nowIso fs "imageId" (by decide),
    norm_frame nowMs nowIso fs "photo_id" (by decide), norm_image_id nowMs nowIso fs]
  exact orD_alias3 _ _ _

theorem photo_url_stable (nowMs : Nat) (nowIso : String) (nowMs2 : Nat) (nowIso2 : String)
    (fs : List (String × JSValue)) :
    getField (normalizeEntrySummaryFields nowMs2 nowIso2
        (normalizeEntrySummaryFields nowMs nowIso fs)) "photo_url"
      = getField (normalizeEntrySummaryFields nowMs nowIso fs) "photo_url" := by
  rw [norm_photo_url, norm_frame nowMs nowIso fs "photoUrl" (by decide),
    norm_photo_url nowMs nowIso fs]
  exact orD_alias2 _ _

theorem normalizeTextSource_cases (src : JSValue) :
    (∃ s, normalizeTextSource src = .str s)
    ∨ (normalizeTextSource src = .null ∧ nullish src = true) := by
  cases src <;> simp [normalizeTextSource, nullish]

theorem aiN_stable (nowMs : Nat) (nowIso : String) (fs : List (String × JSValue)) :
    normalizeTextSource (resolveAiSource (normalizeEntrySummaryFields nowMs nowIso fs))
      = normalizeTextSource (resolveAiSource fs) := by
  have hshow : resolveAiSource (normalizeEntrySummaryFields nowMs nowIso fs)
      = orD (getField (normalizeEntrySummaryFields nowMs nowIso fs) "ai_comments")
          (orD (getField (normalizeEntrySummaryFields nowMs nowIso fs) "aiComments")
            (orD (getField (normalizeEntrySummaryFields nowMs nowIso fs) "ai_comment")
              (orD (getField (normalizeEntrySummaryFields nowMs nowIso fs) "aiComment")
                .null))) := rfl
  rw [hshow, norm_ai_comments, norm_frame nowMs nowIso fs "aiComments" (by decide),
    norm_frame nowMs nowIso fs "ai_comment" (by decide),
    norm_frame nowMs nowIso fs "aiComment" (by decide)]
  rcases normalizeTextSource_cases (resolveAiSource fs) with ⟨s, hs⟩ | ⟨hn, hsrc⟩
  · rw [hs, orD_of_not_nullish _ (by simp [nullish])]
    rfl
  · have hall : nullish (getField fs "ai_comments") = true
        ∧ nullish (getField fs "aiComments") = true
        ∧ nullish (getField fs "ai_comment") = true
        ∧ nullish (getField fs "aiComment") = true := by
      have h2 := hsrc
      simp only [resolveAiSource, nullish_orD, nullish_null, Bool.and_true,
        Bool.and_eq_true] at h2
      exact ⟨h2.1, h2.2.1, h2.2.2⟩
    rw [hn, orD_of_nullish _ nullish_null, orD_of_nullish _ hall.2.1,
      orD_of_nullish _ hall.2.2.1, orD_of_nullish _ hall.2.2.2]
    rfl

theorem recN_stable (nowMs : Nat) (nowIso : String) (fs : List (String × JSValue)) :
    normalizeTextSource (resolveRecSource (normalizeEntrySummaryFields nowMs nowIso fs))
      = normalizeTextSource (resolveRecSource fs) := by
  have hshow : resolveRecSource (normalizeEntrySummaryFields nowMs nowIso fs)
      = orD (getField (normalizeEntrySummaryFields nowMs nowIso fs) "recommendations")
          (orD (getField (normalizeEntrySummaryFields nowMs nowIso fs) "recommendation")
            (orD (getField (normalizeEntrySummaryFields nowMs nowIso fs) "recommendation_text")
              (orD (getField (normalizeEntrySummaryFields nowMs nowIso fs) "recommendationText")
                .null))) := rfl
  rw [hshow, norm_recommendations, norm_frame nowMs nowIso fs "recommendation" (by decide),
    norm_frame nowMs nowIso fs "recommendation_text" (by decide),
    norm_frame nowMs nowIso fs "recommendationText" (by decide)]
  rcases normalizeTextSource_cases (resolveRecSource fs) with ⟨s, hs⟩ | ⟨hn, hsrc⟩
  · rw [hs, orD_of_not_nullish _ (by simp [nullish])]
    rfl
  · have hall : nullish (getField fs "recommendations") = true
        ∧ nullish (getField fs "recommendation") = true
        ∧ nullish (getField fs "recommendation_text") = true
        ∧ nullish (getField fs "recommendationText") = true := by
      have h2 := hsrc
      simp only [resolveRecSource, nullish_orD, nullish_null, Bool.and_true,
        Bool.and_eq_true] at h2
      exact ⟨h2.1, h2.2.1, h2.2.2⟩
    rw [hn, orD_of_nullish _ nullish_null, orD_of_nullish _ hall.2.1,
      orD_of_nullish _ hall.2.2.1, orD_of_nullish _ hall.2.2.2]
    rfl

theorem aiSummaryValue_stable (nowMs : Nat) (nowIso : String) (fs : List (String × JSValue)) :
    aiSummaryValue (normalizeEntrySummaryFields nowMs nowIso fs) = aiSummaryValue fs := by
  rw [show aiSummaryValue (normalizeEntrySummaryFields nowMs nowIso fs)
      = (if backfillCond (normalizeEntrySummaryFields nowMs nowIso fs)
          then normalizeTextSource (resolveAiSource (normalizeEntrySummaryFields nowMs nowIso fs))
          else getField (normalizeEntrySummaryFields nowMs nowIso fs) "ai_summary") from rfl]
  rw [show backfillCond (normalizeEntrySummaryFields nowMs nowIso fs)
      = ((!toBool (getField (normalizeEntrySummaryFields nowMs nowIso fs) "ai_summary")
          || isBlankString (getField (normalizeEntrySummaryFields nowMs nowIso fs) "ai_summary"))
        && isNonBlankString (normalizeTextSource
          (resolveAiSource (normalizeEntrySummaryFields nowMs nowIso fs)))) from rfl]
  rw [aiN_stable, norm_ai_summary]
  by_cases hbc : backfillCond fs = true
  · have hv : aiSummaryValue fs = normalizeTextSource (resolveAiSource fs) := by
      rw [aiSummaryValue, if_pos hbc]
    rw [hv]
    simp
  · have hbc2 : backfillCond fs = false := by
      cases hx : backfillCond fs
      · rfl
      · exact absurd hx hbc
    have hv : aiSummaryValue fs = getField fs "ai_summary" := by
      rw [aiSummaryValue, if_neg]
      simp [hbc2]
    rw [hv]
    have hcfalse : ((!toBool (getField fs "ai_summary") || isBlankString (getField fs "ai_summary"))
        && isNonBlankString (normalizeTextSource (resolveAiSource fs))) = false := hbc2
    rw [hcfalse]
    simp

theorem ai_summary_stable (nowMs : Nat) (nowIso : String) (nowMs2 : Nat) (nowIso2 : String)
    (fs : List (String × JSValue)) :
    getField (normalizeEntrySummaryFields nowMs2 nowIso2
        (normalizeEntrySummaryFields nowMs nowIso fs)) "ai_summary"
      = getField (normalizeEntrySummaryFields nowMs nowIso fs) "ai_summary" := by
  rw [norm_ai_summary, norm_ai_summary, aiSummaryValue_stable]

theorem ai_comments_stable (nowMs : Nat) (nowIso : String) (nowMs2 : Nat) (nowIso2 : String)
    (fs : List (String × JSValue)) :
    getField (normalizeEntrySummaryFields nowMs2 nowIso2
        (normalizeEntrySummaryFields nowMs nowIso fs)) "ai_comments"
      = getField (normalizeEntrySummaryFields nowMs nowIso fs) "ai_comments" := by
  rw [norm_ai_comments, norm_ai_comments, aiN_stable]

theorem recommendations_stable (nowMs : Nat) (nowIso : String) (nowMs2 : Nat) (nowIso2 : String)
    (fs : List (String × JSValue)) :
    getField (normalizeEntrySummaryFields nowMs2 nowIso2
        (normalizeEntrySummaryFields nowMs nowIso fs)) "recommendations"
      = getField (normalizeEntrySummaryFields nowMs nowIso fs) "recommendations" := by
  rw [norm_recommendations, norm_recommendations, recN_stable]

theorem summaryValue_eq (fs : List (String × JSValue)) :
    summaryValue fs = firstNonBlank [getField fs "summary", aiSummaryValue fs,
      normalizeTextSource (resolveAiSource fs), normalizeTextSource (resolveRecSource fs),
      getField fs "user_notes"] := rfl

theorem firstNonBlank_cons_pos {v : JSValue} (l : List JSValue)
    (h : isNonBlankString v = true) : firstNonBlank (v :: l) = v := by
  simp [firstNonBlank, List.find?, h]

theorem firstNonBlank_cons_neg {v : JSValue} (l : List JSValue)
    (h : isNonBlankString v = false) : firstNonBlank (v :: l) = firstNonBlank l := by
  simp [firstNonBlank, List.find?, h]

theorem firstNonBlank_self (l : List JSValue) :
    firstNonBlank (firstNonBlank l :: l) = firstNonBlank l := by
  cases h : isNonBlankString (firstNonBlank l)
  · rw [firstNonBlank_cons_neg _ h]
  · rw [firstNonBlank_cons_pos _ h]

theorem summaryValue_stable (nowMs : Nat) (nowIso : String) (fs : List (String × JSValue)) :
    summaryValue (normalizeEntrySummaryFields nowMs nowIso fs) = summaryValue fs := by
  rw [summaryValue_eq, summaryValue_eq]
  rw [norm_summary nowMs nowIso fs, aiSummaryValue_stable, aiN_stable, recN_stable,
    norm_frame nowMs nowIso fs "user_notes" (by decide)]
  cases h0 : isNonBlankString (getField fs "summary")
  · rw [firstNonBlank_cons_neg _ h0]
    have hsv : summaryValue fs = firstNonBlank [aiSummaryValue fs,
        normalizeTextSource (resolveAiSource fs), normalizeTextSource (resolveRecSource fs),
        getField fs "user_notes"] := by
      rw [summaryValue_eq, firstNonBlank_cons_neg _ h0]
    rw [hsv, firstNonBlank_self]
  · rw [firstNonBlank_cons_pos _ h0]
    have hsv : summaryValue fs = getField fs "summary" := by
      rw [summaryValue_eq, firstNonBlank_cons_pos _ h0]
    rw [hsv, firstNonBlank_cons_pos _ h0]

theorem summary_stable (nowMs : Nat) (nowIso : String) (nowMs2 : Nat) (nowIso2 : String)
    (fs : List (String × JSValue)) :
    getField (normalizeEntrySummaryFields nowMs2 nowIso2
        (normalizeEntrySummaryFields nowMs nowIso fs)) "summary"
      = getField (normalizeEntrySummaryFields nowMs nowIso fs) "summary" := by
  rw [norm_summary, norm_summary, summaryValue_stable]

theorem treatment_cases (src : JSValue) :
    (∃ xs, normalizeTreatmentSource src = .arr xs)
    ∨ normalizeTreatmentSource src = .null := by
  cases src <;> simp [normalizeTreatmentSource]

theorem treatment_elements {src : JSValue} {xs : List JSValue}
    (h : normalizeTreatmentSource src = .arr xs) :
    ∀ v ∈ xs, ∃ t, v = .str t ∧ t ≠ "" := by
  cases src with
  | arr l =>
    simp only [normalizeTreatmentSource, JSValue.arr.injEq] at h
    subst h
    intro v hv
    simp only [List.mem_map] at hv
    obtain ⟨t, ht, rfl⟩ := hv
    exact ⟨t, rfl, by simpa using List.of_mem_filter ht⟩
  | str s =>
    simp only [normalizeTreatmentSource, JSValue.arr.injEq] at h
    subst h
    intro v hv
    simp only [List.mem_map] at hv
    obtain ⟨t, ht, rfl⟩ := hv
    exact ⟨t, rfl, by simpa using List.of_mem_filter ht⟩
  | null => simp [normalizeTreatmentSource] at h
  | undefined => simp [normalizeTreatmentSource] at h
  | bool b => simp [normalizeTreatmentSource] at h
  | num q => simp [normalizeTreatmentSource] at h
  | obj o => simp [normalizeTreatmentSource] at h

theorem join_map_filter_id (xs : List JSValue)
    (helem : ∀ v ∈ xs, ∃ t, v = .str t ∧ jsTrim t = t ∧ t ≠ "") :
    ((xs.map coerceItem).filter (fun s => s ≠ "")).map JSValue.str = xs := by
  induction xs with
  | nil => rfl
  | cons v rest ih =>
    obtain ⟨t, hv, htr, hne⟩ := helem v (by simp)
    subst hv
    simp only [List.map_cons, coerceItem, htr]
    rw [List.filter_cons_of_pos (by simp [hne])]
    simp only [List.map_cons]
    rw [ih (fun w hw => helem w (by simp [hw]))]

theorem renorm_treatment_arr {xs : List JSValue}
    (helem : ∀ v ∈ xs, ∃ t, v = .str t ∧ jsTrim t = t ∧ t ≠ "") :
    normalizeTreatmentSource (.arr xs) = .arr xs := by
  simp only [normalizeTreatmentSource]
  rw [join_map_filter_id xs helem]

theorem treatment_stable (nowMs : Nat) (nowIso : String) (nowMs2 : Nat) (nowIso2 : String)
    (fs : List (String × JSValue))
    (ht1 : normalizeTreatmentSource (resolveTreatmentSource fs) = .null →
      normalizeTreatmentSource (orD (getField fs "treatments")
        (orD (getField fs "recommended_treatments")
          (orD (getField fs "recommendedTreatments") .null))) = .null)
    (ht2 : ∀ xs, normalizeTreatmentSource (resolveTreatmentSource fs) = .arr xs →
      ∀ v ∈ xs, ∃ t, v = .str t ∧ jsTrim t = t) :
    getField (normalizeEntrySummaryFields nowMs2 nowIso2
        (normalizeEntrySummaryFields nowMs nowIso fs)) "treatment"
      = getField (normalizeEntrySummaryFields nowMs nowIso fs) "treatment" := by
  rw [norm_treatment nowMs2 nowIso2]
  have hshow : resolveTreatmentSource (normalizeEntrySummaryFields nowMs nowIso fs)
      = orD (getField (normalizeEntrySummaryFields nowMs nowIso fs) "treatment")
          (orD (getField (normalizeEntrySummaryFields nowMs nowIso fs) "treatments")
            (orD (getField (normalizeEntrySummaryFields nowMs nowIso fs) "recommended_treatments")
              (orD (getField (normalizeEntrySummaryFields nowMs nowIso fs) "recommendedTreatments")
                .null))) := rfl
  rw [hshow, norm_treatment nowMs nowIso, norm_frame nowMs nowIso fs "treatments" (by decide),
    norm_frame nowMs nowIso fs "recommended_treatments" (by decide),
    norm_frame nowMs nowIso fs "recommendedTreatments" (by decide)]
  rcases treatment_cases (resolveTreatmentSource fs) with ⟨xs, hx⟩ | hnull
  · rw [hx, orD_of_not_nullish _ (by simp [nullish])]
    refine renorm_treatment_arr (fun v hv => ?_)
    obtain ⟨t, hv2, htr⟩ := ht2 xs hx v hv
    obtain ⟨t2, hv3, hne⟩ := treatment_elements hx v hv
    rw [hv2] at hv3
    simp only [JSValue.str.injEq] at hv3
    subst hv3
    exact ⟨t, hv2, htr, hne⟩
  · rw [hnull, orD_of_nullish _ nullish_null]
    exact ht1 hnull

theorem norwood_cases (src : JSValue) :
    (∃ q, normalizeNorwoodSource src = .num q)
    ∨ normalizeNorwoodSource src = .null := by
  cases src with
  | num q => exact Or.inl ⟨q, rfl⟩
  | str s =>
    simp only [normalizeNorwoodSource]
    cases firstNumeral s <;> simp
  | null => exact Or.inr rfl
  | undefined => exact Or.inr rfl
  | bool b => exact Or.inr rfl
  | arr l => exact Or.inr rfl
  | obj o => exact Or.inr rfl

theorem norwood_stable (nowMs : Nat) (nowIso : String) (nowMs2 : Nat) (nowIso2 : String)
    (fs : List (String × JSValue))
    (hn : normalizeNorwoodSource (resolveNorwoodSource fs) = .null →
      normalizeNorwoodSource (orD (getField fs "norwoodScore")
        (orD (getField fs "norwood_stage") .null)) = .null) :
    getField (normalizeEntrySummaryFields nowMs2 nowIso2
        (normalizeEntrySummaryFields nowMs nowIso fs)) "norwood_score"
      = getField (normalizeEntrySummaryFields nowMs nowIso fs) "norwood_score" := by
  rw [norm_norwood nowMs2 nowIso2]
  have hshow : resolveNorwoodSource (normalizeEntrySummaryFields nowMs nowIso fs)
      = orD (getField (normalizeEntrySummaryFields nowMs nowIso fs) "norwood_score")
          (orD (getField (normalizeEntrySummaryFields nowMs nowIso fs) "norwoodScore")
            (orD (getField (normalizeEntrySummaryFields nowMs nowIso fs) "norwood_stage")
              .null)) := rfl
  rw [hshow, norm_norwood nowMs nowIso, norm_frame nowMs nowIso fs "norwoodScore" (by decide),
    norm_frame nowMs nowIso fs "norwood_stage" (by decide)]
  rcases norwood_cases (resolveNorwoodSource fs) with ⟨q, hq⟩ | hnull
  · rw [hq, orD_of_not_nullish _ (by simp [nullish])]
    rfl
  · rw [hnull, orD_of_nullish _ nullish_null]
    exact hn hnull

theorem processedId_ne_num (ty v : JSValue) (q : Rat) : processedId ty v ≠ .num q := by
  cases v <;> simp [processedId]

theorem processedId_idem (ty P : JSValue)
    (h1 : ∀ s, P = .str s → jsTrim s = s ∧ jsStartsWith s (jsToString ty ++ "-") = false)
    (h2 : ∀ q, P ≠ .num q) :
    processedId ty P = P := by
  cases P with
  | num q => exact absurd rfl (h2 q)
  | str s =>
    obtain ⟨htr, hst⟩ := h1 s rfl
    simp only [processedId]
    rw [htr, hst]
    simp
  | null => rfl
  | undefined => rfl
  | bool b => rfl
  | arr l => rfl
  | obj o => rfl

theorem entry_id_stable (nowMs : Nat) (nowIso : String) (nowMs2 : Nat) (nowIso2 : String)
    (fs : List (String × JSValue))
    (hsyn : toBool (processedId (resolveEntryType fs) (resolveEntryId fs)) = true)
    (hstable : ∀ s, processedId (resolveEntryType fs) (resolveEntryId fs) = .str s →
      jsTrim s = s ∧ jsStartsWith s (jsToString (resolveEntryType fs) ++ "-") = false) :
    getField (normalizeEntrySummaryFields nowMs2 nowIso2
        (normalizeEntrySummaryFields nowMs nowIso fs)) "entry_id"
      = getField (normalizeEntrySummaryFields nowMs nowIso fs) "entry_id" := by
  rw [norm_entry_id nowMs2 nowIso2, norm_entry_id nowMs nowIso, resolveEntryType_stable,
    resolveEntryId_stable]
  have hE1 : processEntryId (resolveEntryType fs) (resolveEntryId fs) nowMs
      = processedId (resolveEntryType fs) (resolveEntryId fs) := by
    simp only [processEntryId]
    rw [if_pos hsyn]
  rw [hE1]
  cases hA : nullish (getField fs "_id") with
  | true =>
    rw [orD_of_nullish _ hA]
    have hidem : processedId (resolveEntryType fs)
        (processedId (resolveEntryType fs) (resolveEntryId fs))
        = processedId (resolveEntryType fs) (resolveEntryId fs) :=
      processedId_idem _ _ hstable (processedId_ne_num _ _)
    simp only [processEntryId]
    rw [hidem, if_pos hsyn]
  | false =>
    rw [orD_of_not_nullish _ hA]
    have hid0 : resolveEntryId fs = getField fs "_id" := by
      have hshow : resolveEntryId fs
          = orD (getField fs "_id") (orD (getField fs "entry_id")
              (orD (getField fs "id") (orD (getField fs "entryId")
                (getField fs "entryID")))) := rfl
      rw [hshow, orD_of_not_nullish _ hA]
    rw [← hid0]
    simp only [processEntryId]
    rw [if_pos hsyn]

/-- C2 counterexample: re-normalization is not idempotent as claimed.
A null-producing `treatment` (or norwood) source shadowing a usable
alias is re-resolved from the alias on the second pass, and a
double-marked id is stripped a second time although it was not
synthesized. -/
theorem normalize_renormalize_cex :
    getField (normalizeEntrySummaryFields 0 "t"
        [("treatment", .num 5), ("treatments", .str "walk")]) "treatment" = .null
    ∧ getField (normalizeEntrySummaryFields 1 "u" (normalizeEntrySummaryFields 0 "t"
        [("treatment", .num 5), ("treatments", .str "walk")])) "treatment"
      = .arr [.str "walk"]
    ∧ JSValue.null ≠ .arr [.str "walk"]
    ∧ getField (normalizeEntrySummaryFields 0 "t"
        [("id", .str "mole-mole-a"), ("type", .str "mole")]) "entry_id" = .str "mole-a"
    ∧ getField (normalizeEntrySummaryFields 1 "u" (normalizeEntrySummaryFields 0 "t"
        [("id", .str "mole-mole-a"), ("type", .str "mole")])) "entry_id" = .str "a"
    ∧ JSValue.str "mole-a" ≠ .str "a"
    ∧ getField (normalizeEntrySummaryFields 0 "t"
        [("norwood_score", .bool true), ("norwood_stage", .str "3")]) "norwood_score" = .null
    ∧ getField (normalizeEntrySummaryFields 1 "u" (normalizeEntrySummaryFields 0 "t"
        [("norwood_score", .bool true), ("norwood_stage", .str "3")])) "norwood_score"
      = .num (parseNumeral "3")
    ∧ (∀ q, JSValue.null ≠ .num q) :=
  ⟨rfl, rfl, by simp, rfl, rfl, by simp, rfl, rfl, fun _ h => JSValue.noConfusion h⟩

/-- C2 (amended): re-normalizing a normalized record leaves
`created_at`, `sequence_id`, `image_id`, `photo_url`, `ai_comments`,
`ai_summary`, `recommendations` and `summary` unchanged
unconditionally; `treatment` and `norwood_score` unchanged provided a
null-producing primary source does not shadow a usable alias source
(and treatment array elements are trimmed strings); and `entry_id`
unchanged provided the first pass did not synthesize the id (the
exception the claim states) and the processed id string is trimmed and
free of a leading entry-type marker. -/
theorem normalize_renormalize_fields (nowMs : Nat) (nowIso : String) (nowMs2 : Nat)
    (nowIso2 : String) (fs : List (String × JSValue)) :
    getField (normalizeEntrySummaryFields nowMs2 nowIso2
        (normalizeEntrySummaryFields nowMs nowIso fs)) "created_at"
      = getField (normalizeEntrySummaryFields nowMs nowIso fs) "created_at"
    ∧ getField (normalizeEntrySummaryFields nowMs2 nowIso2
        (normalizeEntrySummaryFields nowMs nowIso fs)) "sequence_id"
      = getField (normalizeEntrySummaryFields nowMs nowIso fs) "sequence_id"
    ∧ getField (normalizeEntrySummaryFields nowMs2 nowIso2
        (normalizeEntrySummaryFields nowMs nowIso fs)) "image_id"
      = getField (normalizeEntrySummaryFields nowMs nowIso fs) "image_id"
    ∧ getField (normalizeEntrySummaryFields nowMs2 nowIso2
        (normalizeEntrySummaryFields nowMs nowIso fs)) "photo_url"
      = getField (normalizeEntrySummaryFields nowMs nowIso fs) "photo_url"
    ∧ getField (normalizeEntrySummaryFields nowMs2 nowIso2
        (normalizeEntrySummaryFields nowMs nowIso fs)) "ai_comments"
      = getField (normalizeEntrySummaryFields nowMs nowIso fs) "ai_comments"
    ∧ getField (normalizeEntrySummaryFields nowMs2 nowIso2
        (normalizeEntrySummaryFields nowMs nowIso fs)) "ai_summary"
      = getField (normalizeEntrySummaryFields nowMs nowIso fs) "ai_summary"
    ∧ getField (normalizeEntrySummaryFields nowMs2 nowIso2
        (normalizeEntrySummaryFields nowMs nowIso fs)) "recommendations"
      = getField (normalizeEntrySummaryFields nowMs nowIso fs) "recommendations"
    ∧ getField (normalizeEntrySummaryFields nowMs2 nowIso2
        (normalizeEntrySummaryFields nowMs nowIso fs)) "summary"
      = getField (normalizeEntrySummaryFields nowMs nowIso fs) "summary"
    ∧ ((normalizeTreatmentSource (resolveTreatmentSource fs) = .null →
          normalizeTreatmentSource (orD (getField fs "treatments")
            (orD (getField fs "recommended_treatments")
              (orD (getField fs "recommendedTreatments") .null))) = .null) →
        (∀ xs, normalizeTreatmentSource (resolveTreatmentSource fs) = .arr xs →
          ∀ v ∈ xs, ∃ t, v = .str t ∧ jsTrim t = t) →
        getField (normalizeEntrySummaryFields nowMs2 nowIso2
            (normalizeEntrySummaryFields nowMs nowIso fs)) "treatment"
          = getField (normalizeEntrySummaryFields nowMs nowIso fs) "treatment")
    ∧ ((normalizeNorwoodSource (resolveNorwoodSource fs) = .null →
          normalizeNorwoodSource (orD (getField fs "norwoodScore")
            (orD (getField fs "norwood_stage") .null)) = .null) →
        getField (normalizeEntrySummaryFields nowMs2 nowIso2
            (normalizeEntrySummaryFields nowMs nowIso fs)) "norwood_score"
          = getField (normalizeEntrySummaryFields nowMs nowIso fs) "norwood_score")
    ∧ (toBool (processedId (resolveEntryType fs) (resolveEntryId fs)) = true →
        (∀ s, processedId (resolveEntryType fs) (resolveEntryId fs) = .str s →
          jsTrim s = s ∧ jsStartsWith s (jsToString (resolveEntryType fs) ++ "-") = false) →
        getField (normalizeEntrySummaryFields nowMs2 nowIso2
            (normalizeEntrySummaryFields nowMs nowIso fs)) "entry_id"
          = getField (normalizeEntrySummaryFields nowMs nowIso fs) "entry_id") :=
  ⟨created_at_stable nowMs nowIso nowMs2 nowIso2 fs,
   sequence_id_stable nowMs nowIso nowMs2 nowIso2 fs,
   image_id_stable nowMs nowIso nowMs2 nowIso2 fs,
   photo_url_stable nowMs nowIso nowMs2 nowIso2 fs,
   ai_comments_stable nowMs nowIso nowMs2 nowIso2 fs,
   ai_summary_stable nowMs nowIso nowMs2 nowIso2 fs,
   recommendations_stable nowMs nowIso nowMs2 nowIso2 fs,
   summary_stable nowMs nowIso nowMs2 nowIso2 fs,
   fun ht1 ht2 => treatment_stable nowMs nowIso nowMs2 nowIso2 fs ht1 ht2,
   fun hn => norwood_stable nowMs nowIso nowMs2 nowIso2 fs hn,
   fun hsyn hstable => entry_id_stable nowMs nowIso nowMs2 nowIso2 fs hsyn hstable⟩

/-- Witness for C2 at a plain already-clean payload, with both clocks
different. -/
theorem normalize_renormalize_fields_witness :
    toBool (processedId (resolveEntryType c2WitnessFields)
        (resolveEntryId c2WitnessFields)) = true
    ∧ getField (normalizeEntrySummaryFields 9 "u2"
        (normalizeEntrySummaryFields 4 "u1" c2WitnessFields)) "entry_id"
      = getField (normalizeEntrySummaryFields 4 "u1" c2WitnessFields) "entry_id"
    ∧ getField (normalizeEntrySummaryFields 9 "u2"
        (normalizeEntrySummaryFields 4 "u1" c2WitnessFields)) "created_at"
      = getField (normalizeEntrySummaryFields 4 "u1" c2WitnessFields) "created_at"
    ∧ getField (normalizeEntrySummaryFields 9 "u2"
        (normalizeEntrySummaryFields 4 "u1" c2WitnessFields)) "treatment"
      = getField (normalizeEntrySummaryFields 4 "u1" c2WitnessFields) "treatment" := by
  have h := normalize_renormalize_fields 4 "u1" 9 "u2" c2WitnessFields
  refine ⟨by decide, ?_, h.1, ?_⟩
  · exact h.2.2.2.2.2.2.2.2.2.2 (by decide)
      (fun s hs => by
        injection hs with h2
        subst h2
        exact ⟨by decide, by decide⟩)
  · exact h.2.2.2.2.2.2.2.2.1 (fun _ => rfl) (fun xs hx => nomatch hx)

end DermAI
